import Mathlib

/-!
Verification of the request/response translation layer and the streaming
response framing decoder of an HTTP-to-Lambda gateway.

Modelling conventions.

Byte streams are modelled as `List Nat`, each element a byte value below 256.
A Rust `String` is modelled by the list of its bytes; every concrete string
appearing in this development is ASCII, so `asciiBytes` produces exactly those
bytes.  JSON text parsing performed by the external serde_json library is kept
abstract: decoders take a `parse` function as an explicit parameter standing
for serde_json's parsing of the raw bytes into the target struct, and theorems
assume only facts that hold of serde_json (for example, that it fails on any
input containing a raw NUL byte, which RFC 8259 forbids anywhere in a JSON
document).  Structure-level deserialization with documented serde defaults is
modelled concretely over a JSON value tree.
-/

/-- Bytes of an ASCII string (every concrete string modelled here is ASCII,
so the code points are exactly the UTF-8 bytes). -/
def asciiBytes (s : String) : List Nat := s.toList.map Char.toNat

/-- The `MetadataPrelude` struct (src/streaming.rs lines 20-29; the same struct
is declared in src/lib.rs and src/main.rs): HTTP status code, header map and
cookie list carried in a streamed response's prelude.  Headers are modelled as
a list of (lower-case name, value) pairs in `http::HeaderMap` iteration
order. -/
structure MetadataPrelude where
  statusCode : Nat
  headers : List (String × String)
  cookies : List String
deriving DecidableEq, Repr

/-- The derived `Default` of `MetadataPrelude`: `StatusCode::default()` is
200 OK, an empty header map and no cookies. -/
def MetadataPrelude.default : MetadataPrelude := ⟨200, [], []⟩

/-- An outgoing axum HTTP response: status, headers in insertion order, and the
list of body bytes (for a streamed body, the concatenation of all emitted
frames). -/
structure HttpResponse where
  status : Nat
  headers : List (String × String)
  body : List Nat
deriving DecidableEq, Repr

/-- One event received from the Lambda response event stream
(`InvokeWithResponseStreamResponseEvent`): a payload chunk whose byte slice may
be absent (`chunk none`) or present and possibly empty, the completion marker
(`InvokeComplete`), or an unhandled event kind. -/
inductive SEvent where
  | chunk (payload : Option (List Nat))
  | complete
  | other
deriving DecidableEq, Repr

/-- The consecutive-NUL scan shared by `try_parse_metadata`
(src/streaming.rs lines 116-131) and `process_buffer` (src/lib.rs lines
371-386): walk the buffer keeping a count of consecutive zero bytes, resetting
the count on a nonzero byte; stop at the first position where the count
reaches 8.  `cnt` is the number of consecutive zeros seen immediately before
the current position; the returned index is relative to the list argument. -/
def findDelimAux : List Nat → Nat → Option Nat
  | [], _ => none
  | b :: rest, cnt =>
    if b = 0 then
      if cnt + 1 = 8 then some 0
      else (findDelimAux rest (cnt + 1)).map (· + 1)
    else (findDelimAux rest 0).map (· + 1)

/-- Index of the last byte of the first run of eight consecutive NUL bytes of
`buffer`, if any — the loop variable `i` at the moment `null_count == 8` in
both Rust scanners. -/
def findDelim (buffer : List Nat) : Option Nat := findDelimAux buffer 0

/-- Specification-side predicate: positions `i-7 .. i` of `buffer` all hold a
zero byte (a run of eight consecutive NULs ends at index `i`). -/
def hasRunEndingAt (buffer : List Nat) (i : Nat) : Prop :=
  7 ≤ i ∧ ∀ k, k ≤ 7 → buffer[i - k]? = some 0

/-- Specification-side predicate: the first run of eight consecutive NUL bytes
of `buffer` ends exactly at index `i`. -/
def firstDelimEndsAt (buffer : List Nat) (i : Nat) : Prop :=
  hasRunEndingAt buffer i ∧ ∀ j, j < i → ¬ hasRunEndingAt buffer j

instance (buffer : List Nat) (i : Nat) : Decidable (hasRunEndingAt buffer i) := by
  unfold hasRunEndingAt; infer_instance

instance (buffer : List Nat) (i : Nat) : Decidable (firstDelimEndsAt buffer i) := by
  unfold firstDelimEndsAt; infer_instance

theorem hasRun_padded_zero (cnt : Nat) (rest : List Nat) :
    List.replicate cnt (0 : Nat) ++ 0 :: rest = List.replicate (cnt + 1) (0 : Nat) ++ rest := by
  rw [List.replicate_succ', List.append_assoc, List.singleton_append]

/-- Transfer of runs across a nonzero byte sitting right after the zero
padding: any run of eight zeros must live entirely to the right of it. -/
theorem hasRun_cons_nonzero {b : Nat} (hb : b ≠ 0) {cnt : Nat} (hcnt : cnt ≤ 7)
    (rest : List Nat) (i : Nat) :
    hasRunEndingAt (List.replicate cnt 0 ++ b :: rest) i ↔
      cnt + 8 ≤ i ∧ hasRunEndingAt rest (i - (cnt + 1)) := by
  constructor
  · rintro ⟨h7, hz⟩
    have hcnt8 : cnt + 8 ≤ i := by
      by_contra hlt
      push_neg at hlt
      -- the window i-7 .. i then contains position cnt, which holds b ≠ 0
      have hk : i - cnt ≤ 7 := by omega
      have := hz (i - cnt) hk
      have hi : i - (i - cnt) = cnt := by omega
      rw [hi] at this
      rw [List.getElem?_append_right (by simp)] at this
      simp at this
      exact hb this
    refine ⟨hcnt8, by omega, fun k hk => ?_⟩
    have := hz k hk
    rw [List.getElem?_append_right (by simp; omega)] at this
    have hpos : i - k - cnt = (i - (cnt + 1) - k) + 1 := by omega
    rw [List.length_replicate, hpos] at this
    simpa using this
  · rintro ⟨h8, h7, hz⟩
    refine ⟨by omega, fun k hk => ?_⟩
    rw [List.getElem?_append_right (by simp; omega)]
    have := hz k hk
    have hpos : i - k - (List.replicate cnt (0 : Nat)).length = (i - (cnt + 1) - k) + 1 := by
      simp; omega
    rw [hpos]
    simpa using this

/-- No run of eight zeros exists in a list of at most seven zeros. -/
theorem hasRun_short_replicate {cnt : Nat} (hcnt : cnt ≤ 7) (i : Nat) :
    ¬ hasRunEndingAt (List.replicate cnt (0 : Nat)) i := by
  rintro ⟨h7, hz⟩
  have := hz 0 (by omega)
  simp only [Nat.sub_zero] at this
  rw [List.getElem?_replicate] at this
  split at this
  · omega
  · simp at this

/-- Main loop invariant of the consecutive-NUL scanner: running it on `l` with
`cnt` pending zeros is equivalent to scanning `replicate cnt 0 ++ l` from
scratch.  The scanner returns exactly the end of the first eight-NUL run. -/
theorem findDelimAux_spec (l : List Nat) : ∀ cnt, cnt ≤ 7 →
    (findDelimAux l cnt = none →
      ∀ i, ¬ hasRunEndingAt (List.replicate cnt 0 ++ l) i)
    ∧ ∀ o, findDelimAux l cnt = some o →
        hasRunEndingAt (List.replicate cnt 0 ++ l) (o + cnt)
        ∧ ∀ j, j < o + cnt → ¬ hasRunEndingAt (List.replicate cnt 0 ++ l) j := by
  induction l with
  | nil =>
    intro cnt hcnt
    refine ⟨fun _ i => ?_, fun o ho => by simp [findDelimAux] at ho⟩
    rw [List.append_nil]
    exact hasRun_short_replicate hcnt i
  | cons b rest ih =>
    intro cnt hcnt
    by_cases hb : b = 0
    · subst hb
      by_cases h8 : cnt + 1 = 8
      · -- the head byte completes the run: result is `some 0`
        have hcnt7 : cnt = 7 := by omega
        subst hcnt7
        have heq : findDelimAux (0 :: rest) 7 = some 0 := by
          simp [findDelimAux]
        constructor
        · intro hnone
          rw [heq] at hnone
          exact absurd hnone (by simp)
        · intro o ho
          rw [heq] at ho
          injection ho with ho
          subst ho
          constructor
          · refine ⟨by omega, fun k hk => ?_⟩
            rcases Nat.lt_or_ge (0 + 7 - k) 7 with h | h
            · rw [List.getElem?_append_left (by simpa using h)]
              rw [List.getElem?_replicate]
              simp [h]
            · have h7 : 0 + 7 - k = 7 := by omega
              rw [h7, List.getElem?_append_right (by simp)]
              simp
          · rintro j hj ⟨h7, _⟩
            omega
      · -- count continues into the tail with one more pending zero
        have hrw : List.replicate cnt (0 : Nat) ++ 0 :: rest =
            List.replicate (cnt + 1) (0 : Nat) ++ rest := hasRun_padded_zero cnt rest
        have heq : findDelimAux (0 :: rest) cnt = (findDelimAux rest (cnt + 1)).map (· + 1) := by
          simp [findDelimAux, h8]
        have ih' := ih (cnt + 1) (by omega)
        constructor
        · intro hnone i
          rw [heq] at hnone
          rw [hrw]
          exact ih'.1 (by simpa using hnone) i
        · intro o ho
          rw [heq] at ho
          cases hinner : findDelimAux rest (cnt + 1) with
          | none => rw [hinner] at ho; exact absurd ho (by simp)
          | some o' =>
            rw [hinner] at ho
            simp only [Option.map_some'] at ho
            injection ho with ho
            subst ho
            have h := ih'.2 o' hinner
            rw [hrw]
            have harith : o' + 1 + cnt = o' + (cnt + 1) := by omega
            rw [harith]
            exact h
    · -- nonzero byte: the pending count resets to zero
      have heq : findDelimAux (b :: rest) cnt = (findDelimAux rest 0).map (· + 1) := by
        simp [findDelimAux, hb]
      have ih' := ih 0 (by omega)
      simp only [List.replicate_zero, List.nil_append] at ih'
      constructor
      · intro hnone i hrun
        rw [heq] at hnone
        rw [hasRun_cons_nonzero hb hcnt rest i] at hrun
        exact ih'.1 (by simpa using hnone) _ hrun.2
      · intro o ho
        rw [heq] at ho
        cases hinner : findDelimAux rest 0 with
        | none => rw [hinner] at ho; exact absurd ho (by simp)
        | some o' =>
          rw [hinner] at ho
          simp only [Option.map_some'] at ho
          injection ho with ho
          subst ho
          obtain ⟨hrun', hmin'⟩ := ih'.2 o' hinner
          have h7 : 7 ≤ o' + 0 := hrun'.1
          constructor
          · rw [hasRun_cons_nonzero hb hcnt rest]
            constructor
            · omega
            · have harith : o' + 1 + cnt - (cnt + 1) = o' + 0 := by omega
              rw [harith]
              exact hrun'
          · intro j hj hrun
            rw [hasRun_cons_nonzero hb hcnt rest] at hrun
            exact hmin' _ (by omega) hrun.2

/-- Soundness: when the scanner reports index `i`, the first eight-NUL run of
the buffer ends exactly there. -/
theorem findDelim_some {buffer : List Nat} {i : Nat} (h : findDelim buffer = some i) :
    firstDelimEndsAt buffer i := by
  have := (findDelimAux_spec buffer 0 (by omega)).2 i h
  simpa [firstDelimEndsAt] using this

/-- Completeness: when the scanner reports no delimiter, the buffer holds no
run of eight consecutive NULs at all. -/
theorem findDelim_none {buffer : List Nat} (h : findDelim buffer = none) (i : Nat) :
    ¬ hasRunEndingAt buffer i := by
  have := (findDelimAux_spec buffer 0 (by omega)).1 h i
  simpa using this

/-- The scanner finds exactly the first delimiter end. -/
theorem firstDelim_findDelim {buffer : List Nat} {i : Nat}
    (h : firstDelimEndsAt buffer i) : findDelim buffer = some i := by
  cases hfd : findDelim buffer with
  | none => exact absurd h.1 (findDelim_none hfd i)
  | some o =>
    obtain ⟨hrun_o, hmin_o⟩ := findDelim_some hfd
    obtain ⟨hrun_i, hmin_i⟩ := h
    rcases Nat.lt_trichotomy o i with hlt | heq | hgt
    · exact absurd hrun_o (hmin_i o hlt)
    · rw [heq]
    · exact absurd hrun_i (hmin_o i hgt)

namespace Streaming

/-- The function `detect_metadata` of src/streaming.rs (lines 109-112): the
stream carries a metadata prelude iff the first buffered byte is the opening
brace (byte 123). -/
def detect_metadata (bytes : List Nat) : Bool := bytes[0]? == some 123

/-- The function `try_parse_metadata` of src/streaming.rs (lines 114-133).
`parse` stands for the external composition of `String::from_utf8_lossy` and
`serde_json::from_str::<MetadataPrelude>` applied to the given bytes; the
source's `unwrap_or_default` is the `getD MetadataPrelude.default`.  When the
scan finds eight consecutive NULs ending at index `i`, the bytes
`buffer[0 .. i-7)` are parsed and the bytes `buffer[i+1 ..]` are returned as
the remaining (payload) data. -/
def try_parse_metadata (parse : List Nat → Option MetadataPrelude)
    (buffer : List Nat) : Option (MetadataPrelude × List Nat) :=
  (findDelim buffer).map fun i =>
    ((parse (buffer.take (i - 7))).getD MetadataPrelude.default, buffer.drop (i + 1))

/-- The metadata-collection loop of `handle_streaming_response`
(src/streaming.rs lines 33-57): receive events, appending payload bytes to the
accumulation buffer; break with no prelude as soon as the buffer does not start
with a brace (or on any event that is not a payload chunk carrying data, which
includes end of stream); break with the prelude and the leftover bytes once
`try_parse_metadata` succeeds.  Returns the prelude (if recognized), the bytes
to flush first, and the events not yet consumed. -/
def collect (parse : List Nat → Option MetadataPrelude) :
    List SEvent → List Nat → Option MetadataPrelude × List Nat × List SEvent
  | [], buffer => (none, buffer, [])
  | e :: rest, buffer =>
    match e with
    | .chunk (some data) =>
      let buffer := buffer ++ data
      if ¬ detect_metadata buffer then (none, buffer, rest)
      else
        match try_parse_metadata parse buffer with
        | some (prelude, remaining) => (some prelude, remaining, rest)
        | none => collect parse rest buffer
    | _ => (none, buffer, rest)

/-- The relay task of `handle_streaming_response` (src/streaming.rs lines
63-99): forward each nonempty payload chunk, ignore chunks without data and
unhandled events, stop at the completion marker or end of stream.  Returns the
forwarded frames in order. -/
def relay : List SEvent → List (List Nat)
  | [] => []
  | .chunk (some data) :: rest =>
    if data.isEmpty then relay rest else data :: relay rest
  | .chunk none :: rest => relay rest
  | .complete :: _ => []
  | .other :: rest => relay rest

/-- An `axum` response builder under construction: status plus the headers
appended so far. -/
structure Builder where
  status : Nat
  headers : List (String × String)
deriving DecidableEq, Repr

/-- `Response::builder()`: default status 200, no headers. -/
def Builder.new : Builder := ⟨200, []⟩

/-- `builder.status(s)`. -/
def Builder.setStatus (b : Builder) (s : Nat) : Builder := { b with status := s }

/-- `builder.header(k, v)`: appends one header entry. -/
def Builder.appendHeader (b : Builder) (k v : String) : Builder :=
  { b with headers := b.headers ++ [(k, v)] }

/-- `HeaderMap::remove(name)`: removes every value stored under `name`. -/
def removeHeader (headers : List (String × String)) (name : String) :
    List (String × String) :=
  headers.filter fun kv => ¬ kv.1 == name

/-- The function `create_response_builder` of src/streaming.rs (lines
135-157): with a prelude, start from its status, install its headers, remove
`content-length`, then append one `set-cookie` header per cookie in order;
without a prelude, status 200 with `content-type: application/octet-stream`. -/
def create_response_builder : Option MetadataPrelude → Builder
  | some metadata =>
    let builder := Builder.new.setStatus metadata.statusCode
    let builder := { builder with headers := metadata.headers }
    let builder := { builder with headers := removeHeader builder.headers "content-length" }
    metadata.cookies.foldl (fun b cookie => b.appendHeader "set-cookie" cookie) builder
  | none =>
    (Builder.new.setStatus 200).appendHeader "content-type" "application/octet-stream"

/-- The function `handle_streaming_response` of src/streaming.rs (lines
31-107): collect the metadata prelude, build the response head, then stream
the leftover buffer (when nonempty) followed by the relayed chunks as the
body.  The response body is the concatenation of all emitted frames. -/
def handle_streaming_response (parse : List Nat → Option MetadataPrelude)
    (events : List SEvent) : HttpResponse :=
  let (metadata, buffer, rest) := collect parse events []
  let builder := create_response_builder metadata
  { status := builder.status
    headers := builder.headers
    body := ((if buffer.isEmpty then [] else [buffer]) ++ relay rest).flatten }

/-- The payload bytes of a protocol-conforming event stream: concatenation of
all chunk payloads delivered before the completion marker. -/
def streamData : List SEvent → List Nat
  | [] => []
  | .chunk (some data) :: rest => data ++ streamData rest
  | .chunk none :: rest => streamData rest
  | .complete :: _ => []
  | .other :: rest => streamData rest

/-- A protocol-conforming stream: payload chunks, optionally terminated by a
single completion marker (`ChunkStream` in the specification). -/
def wellFormed : List SEvent → Bool
  | [] => true
  | [.complete] => true
  | .chunk _ :: rest => wellFormed rest
  | _ => false

theorem relay_flatten (events : List SEvent) :
    (relay events).flatten = streamData events := by
  induction events with
  | nil => rfl
  | cons e rest ih =>
    match e with
    | .chunk (some data) =>
      by_cases h : data.isEmpty
      · have hnil : data = [] := List.isEmpty_iff.mp h
        simp [relay, streamData, h, hnil, ih]
      · simp [relay, streamData, h, ih]
    | .chunk none => simp [relay, streamData, ih]
    | .complete => simp [relay, streamData]
    | .other => simp [relay, streamData, ih]

end Streaming

namespace Streaming

/-- Observable output of the streaming decoder: recognition of the metadata
prelude, or one frame of payload bytes handed to the HTTP response body. -/
inductive SOut where
  | meta (prelude : MetadataPrelude)
  | bytes (data : List Nat)
deriving DecidableEq, Repr

/-- Phase of the decoder: inside the metadata-collection loop, inside the
relay loop, or stopped after the completion marker. -/
inductive Phase where
  | collecting
  | relaying
  | done
deriving DecidableEq, Repr

/-- Per-event state of the decoder: the phase plus the accumulation buffer
(meaningful only while collecting). -/
structure MState where
  phase : Phase
  buffer : List Nat
deriving DecidableEq, Repr

/-- Small-step semantics of `handle_streaming_response` (src/streaming.rs):
the effect of processing one received event, given the current phase, exactly
following the branch the code takes for that event.  Produces the successor
state and the outputs emitted during the step. -/
def step (parse : List Nat → Option MetadataPrelude) (s : MState) (e : SEvent) :
    MState × List SOut :=
  match s.phase with
  | .collecting =>
    match e with
    | .chunk (some data) =>
      let buffer := s.buffer ++ data
      if ¬ detect_metadata buffer then
        (⟨.relaying, []⟩, if buffer.isEmpty then [] else [.bytes buffer])
      else
        match try_parse_metadata parse buffer with
        | some (prelude, remaining) =>
          (⟨.relaying, []⟩,
            .meta prelude :: if remaining.isEmpty then [] else [.bytes remaining])
        | none => (⟨.collecting, buffer⟩, [])
    | _ => (⟨.relaying, []⟩, if s.buffer.isEmpty then [] else [.bytes s.buffer])
  | .relaying =>
    match e with
    | .chunk (some data) => (s, if data.isEmpty then [] else [.bytes data])
    | .chunk none => (s, [])
    | .complete => (⟨.done, []⟩, [])
    | .other => (s, [])
  | .done => (s, [])

/-- Outputs still owed at end of stream: a collection loop that never resolved
flushes its accumulated buffer as payload. -/
def finalize : MState → List SOut
  | ⟨.collecting, buffer⟩ => if buffer.isEmpty then [] else [.bytes buffer]
  | _ => []

/-- Run the stepper over a whole event list, concatenating outputs. -/
def runAux (parse : List Nat → Option MetadataPrelude) :
    MState → List SEvent → List SOut
  | s, [] => finalize s
  | s, e :: rest => (step parse s e).2 ++ runAux parse (step parse s e).1 rest

/-- The complete output trace of the decoder processing an event stream one
event at a time, starting in the collection phase with an empty buffer. -/
def machineTrace (parse : List Nat → Option MetadataPrelude)
    (events : List SEvent) : List SOut :=
  runAux parse ⟨.collecting, []⟩ events

/-- Trace contributed by a resolved collection-loop outcome: the recognized
prelude (if any), then the flushed leftover bytes, then the relayed frames of
the unconsumed events. -/
def traceOf (result : Option MetadataPrelude × List Nat × List SEvent) : List SOut :=
  (match result.1 with | some p => [SOut.meta p] | none => [])
    ++ (if result.2.1.isEmpty then [] else [SOut.bytes result.2.1])
    ++ (relay result.2.2).map SOut.bytes

/-- The trace as computed by the two-loop structure of the code: outcome of
the collection loop, then the flushed leftover bytes, then the relayed
frames. -/
def decodeTrace (parse : List Nat → Option MetadataPrelude)
    (events : List SEvent) : List SOut :=
  traceOf (collect parse events [])

theorem runAux_done (parse : List Nat → Option MetadataPrelude)
    (buffer : List Nat) (events : List SEvent) :
    runAux parse ⟨.done, buffer⟩ events = [] := by
  induction events with
  | nil => rfl
  | cons e rest ih => simpa [runAux, step, finalize] using ih

theorem runAux_relaying (parse : List Nat → Option MetadataPrelude)
    (buffer : List Nat) (events : List SEvent) :
    runAux parse ⟨.relaying, buffer⟩ events = (relay events).map SOut.bytes := by
  induction events generalizing buffer with
  | nil => rfl
  | cons e rest ih =>
    match e with
    | .chunk (some data) =>
      by_cases h : data.isEmpty
      · simp [runAux, step, relay, h, ih]
      · simp [runAux, step, relay, h, ih]
    | .chunk none => simp [runAux, step, relay, ih]
    | .complete => simp [runAux, step, relay, runAux_done]
    | .other => simp [runAux, step, relay, ih]

theorem runAux_collecting (parse : List Nat → Option MetadataPrelude)
    (events : List SEvent) : ∀ buffer : List Nat,
    runAux parse ⟨.collecting, buffer⟩ events = traceOf (collect parse events buffer) := by
  induction events with
  | nil => intro buffer; simp [runAux, collect, finalize, traceOf, relay]
  | cons e rest ih =>
    intro buffer
    match e with
    | .chunk (some data) =>
      by_cases hdet : detect_metadata (buffer ++ data)
      · cases htp : try_parse_metadata parse (buffer ++ data) with
        | some pr =>
          obtain ⟨prelude, remaining⟩ := pr
          simp [runAux, step, collect, hdet, htp, runAux_relaying, traceOf]
        | none =>
          simpa [runAux, step, collect, hdet, htp] using ih (buffer ++ data)
      · simp [runAux, step, collect, hdet, runAux_relaying, traceOf]
    | .chunk none => simp [runAux, step, collect, runAux_relaying, traceOf]
    | .complete => simp [runAux, step, collect, runAux_relaying, traceOf]
    | .other => simp [runAux, step, collect, runAux_relaying, traceOf]

/-- The per-event machine produces exactly the two-loop trace. -/
theorem machineTrace_eq_decodeTrace (parse : List Nat → Option MetadataPrelude)
    (events : List SEvent) :
    machineTrace parse events = decodeTrace parse events := by
  rw [machineTrace, decodeTrace, runAux_collecting]

end Streaming

namespace LibRs

/-- The function `process_buffer` of src/lib.rs (lines 370-388).  It scans for
eight consecutive NULs with the same counter loop as src/streaming.rs, but on
success it parses `buffer[..i]` — not `buffer[..i-7]` — so the parsed slice
keeps the first seven NUL bytes of the delimiter; `buffer[i+1..]` is returned
as the remaining data.  Without a complete delimiter it reports no prelude and
empty remaining data.  `parse` stands for `String::from_utf8_lossy` composed
with `serde_json::from_str::<MetadataPrelude>`; `getD` is the source's
`unwrap_or_default`. -/
def process_buffer (parse : List Nat → Option MetadataPrelude)
    (buffer : List Nat) : Option MetadataPrelude × List Nat :=
  match findDelim buffer with
  | some i =>
    (some ((parse (buffer.take i)).getD MetadataPrelude.default), buffer.drop (i + 1))
  | none => (none, [])

end LibRs

namespace MainRs

/-- The per-chunk byte loop of `handle_streaming_response` in src/main.rs
(lines 225-240): nonzero bytes are pushed onto the metadata buffer, zero bytes
increment `null_count` (which this loop never resets on a nonzero byte); when
the count reaches 8, the rest of the chunk becomes the remaining data and
scanning stops. -/
def scanChunk : List Nat → Nat → List Nat → List Nat × Option (List Nat)
  | [], _, meta => (meta, none)
  | b :: rest, cnt, meta =>
    if b ≠ 0 then scanChunk rest cnt (meta ++ [b])
    else if cnt + 1 = 8 then (meta, some rest)
    else scanChunk rest (cnt + 1) meta

/-- The labelled outer metadata loop of src/main.rs (lines 220-245): run
`scanChunk` on each payload chunk, reinitializing `null_count` to 0 for every
chunk; payload-less chunks and other events are skipped; stop when a chunk
reports the delimiter, or at end of stream.  Returns the metadata buffer, the
remaining data, and the unconsumed events. -/
def collectLoop : List SEvent → List Nat → List Nat × List Nat × List SEvent
  | [], meta => (meta, [], [])
  | e :: rest, meta =>
    match e with
    | .chunk (some data) =>
      match scanChunk data 0 meta with
      | (meta2, some remain) => (meta2, remain, rest)
      | (meta2, none) => collectLoop rest meta2
    | _ => collectLoop rest meta

/-- The relay of src/main.rs (lines 250-277): the spawned task forwards every
remaining event; the body stream maps payload chunks to their bytes,
payload-less chunks and the completion marker to empty frames, and yields an
error on any other event kind, which aborts the body (modelled as
stopping). -/
def relayLoop : List SEvent → List (List Nat)
  | [] => []
  | .chunk (some data) :: rest => data :: relayLoop rest
  | .chunk none :: rest => relayLoop rest
  | .complete :: rest => relayLoop rest
  | .other :: _ => []

/-- The function `handle_streaming_response` of src/main.rs (lines 214-293):
collect the metadata buffer, parse it (`unwrap_or_default` on failure — here
`parse` also absorbs the `String::from_utf8` step), then respond with the
prelude's status, its headers except `content-length`, and one `set-cookie`
header per cookie, followed by the remaining data plus relayed chunks as the
body.  Note that when no prelude was found this path still uses the default
prelude: there is no `application/octet-stream` fallback header in this
variant. -/
def handle_streaming_response (parse : List Nat → Option MetadataPrelude)
    (events : List SEvent) : HttpResponse :=
  let (meta, remain, rest) := collectLoop events []
  let metadataPrelude := (parse meta).getD MetadataPrelude.default
  { status := metadataPrelude.statusCode
    headers := (metadataPrelude.headers.filter fun kv => ¬ kv.1 == "content-length")
      ++ metadataPrelude.cookies.map fun cookie => ("set-cookie", cookie)
    body := remain ++ (relayLoop rest).flatten }

end MainRs

/-- `HeaderMap::get`: the first value stored under the given (lower-case)
header name. -/
def getHeader (headers : List (String × String)) (name : String) : Option String :=
  (headers.find? fun kv => kv.1 == name).map fun kv => kv.2

/-- The function `whether_should_base64_encode` of src/utils.rs (lines 21-34):
read the `content-type` header (an absent or non-readable value becomes the
empty string via `unwrap_or_default`) and decide whether the body must be
base64-encoded: the three exact application types and any `text/`-prefixed
type travel as text, everything else is encoded.  The same inline match
appears in the handlers of src/lib.rs (lines 101-107) and src/main.rs (lines
86-92). -/
def whether_should_base64_encode (headers : List (String × String)) : Bool :=
  let contentType := (getHeader headers "content-type").getD ""
  if contentType == "application/json" then false
  else if contentType == "application/xml" then false
  else if contentType == "application/javascript" then false
  else if contentType.startsWith "text/" then false
  else true

/-- Is `b` a UTF-8 continuation byte (0x80 .. 0xBF)? -/
def contByte (b : Nat) : Bool := 128 ≤ b && b ≤ 191

/-- Number of continuation bytes of the well-formed UTF-8 sequence starting at
lead byte `b0` and continuing into `rest`, or `none` when no well-formed
sequence starts here.  This is the table enforced by Rust's
`core::str::validations` (shortest form only, surrogates excluded). -/
def utf8SeqLen (b0 : Nat) (rest : List Nat) : Option Nat :=
  if b0 < 128 then some 0
  else if 194 ≤ b0 && b0 ≤ 223 then
    match rest with
    | b1 :: _ => if contByte b1 then some 1 else none
    | [] => none
  else if b0 = 224 then
    match rest with
    | b1 :: b2 :: _ => if (160 ≤ b1 && b1 ≤ 191) && contByte b2 then some 2 else none
    | _ => none
  else if 225 ≤ b0 && b0 ≤ 236 then
    match rest with
    | b1 :: b2 :: _ => if contByte b1 && contByte b2 then some 2 else none
    | _ => none
  else if b0 = 237 then
    match rest with
    | b1 :: b2 :: _ => if (128 ≤ b1 && b1 ≤ 159) && contByte b2 then some 2 else none
    | _ => none
  else if 238 ≤ b0 && b0 ≤ 239 then
    match rest with
    | b1 :: b2 :: _ => if contByte b1 && contByte b2 then some 2 else none
    | _ => none
  else if b0 = 240 then
    match rest with
    | b1 :: b2 :: b3 :: _ =>
      if (144 ≤ b1 && b1 ≤ 191) && contByte b2 && contByte b3 then some 3 else none
    | _ => none
  else if 241 ≤ b0 && b0 ≤ 243 then
    match rest with
    | b1 :: b2 :: b3 :: _ =>
      if contByte b1 && contByte b2 && contByte b3 then some 3 else none
    | _ => none
  else if b0 = 244 then
    match rest with
    | b1 :: b2 :: b3 :: _ =>
      if (128 ≤ b1 && b1 ≤ 143) && contByte b2 && contByte b3 then some 3 else none
    | _ => none
  else none

/-- Validity of a byte list as UTF-8: the success condition of Rust's
`str::from_utf8` / `String::from_utf8`. -/
def validUtf8 : List Nat → Bool
  | [] => true
  | b0 :: rest =>
    match utf8SeqLen b0 rest with
    | some n => validUtf8 (rest.drop n)
    | none => false
termination_by l => l.length
decreasing_by
  simp only [List.length_drop, List.length_cons]
  omega

/-- The UTF-8 encoding of the replacement character U+FFFD. -/
def replacementBytes : List Nat := [239, 191, 189]

/-- Model of Rust's `String::from_utf8_lossy` as a byte transformation:
well-formed sequences are copied through unchanged; at an ill-formed sequence
a replacement character is emitted and scanning resumes after the offending
lead byte.  (Rust consumes a maximal ill-formed subpart of up to three bytes
instead of a single byte; the difference is unobservable in this development,
which only ever applies the function to well-formed input, where both
behaviors are the identity.) -/
def fromUtf8Lossy : List Nat → List Nat
  | [] => []
  | b0 :: rest =>
    match utf8SeqLen b0 rest with
    | some n => b0 :: (rest.take n ++ fromUtf8Lossy (rest.drop n))
    | none => replacementBytes ++ fromUtf8Lossy rest
termination_by l => l.length
decreasing_by
  all_goals simp only [List.length_drop, List.length_cons]
  all_goals omega

/-- On well-formed UTF-8 input, `from_utf8_lossy` returns the bytes
unchanged. -/
theorem fromUtf8Lossy_valid : ∀ l : List Nat, validUtf8 l = true → fromUtf8Lossy l = l := by
  intro l
  induction l using fromUtf8Lossy.induct with
  | case1 => intro; simp [fromUtf8Lossy]
  | case2 b0 rest n hseq ih =>
    intro hvalid
    simp only [validUtf8, hseq] at hvalid
    simp only [fromUtf8Lossy, hseq]
    rw [ih hvalid, List.take_append_drop]
  | case3 b0 rest hseq ih =>
    intro hvalid
    simp only [validUtf8, hseq] at hvalid
    exact absurd hvalid (by simp)

/-- Every list of ASCII bytes (below 128) is valid UTF-8. -/
theorem validUtf8_ascii : ∀ l : List Nat, (∀ x ∈ l, x < 128) → validUtf8 l = true := by
  intro l
  induction l with
  | nil => intro h; simp [validUtf8]
  | cons b rest ih =>
    intro h
    have hb : b < 128 := h b (by simp)
    have hseq : utf8SeqLen b rest = some 0 := by simp [utf8SeqLen, hb]
    rw [validUtf8, hseq]
    simpa using ih (fun x hx => h x (by simp [hx]))

/-- Character of the standard base64 alphabet for a 6-bit value. -/
def b64Char (n : Nat) : Nat :=
  if n < 26 then 65 + n
  else if n < 52 then 97 + (n - 26)
  else if n < 62 then 48 + (n - 52)
  else if n = 62 then 43
  else 47

/-- Six-bit value of a standard-alphabet base64 character, `none` for any
character outside the alphabet. -/
def b64CharVal (c : Nat) : Option Nat :=
  if 65 ≤ c && c ≤ 90 then some (c - 65)
  else if 97 ≤ c && c ≤ 122 then some (c - 97 + 26)
  else if 48 ≤ c && c ≤ 57 then some (c - 48 + 52)
  else if c = 43 then some 62
  else if c = 47 then some 63
  else none

/-- `base64::engine::general_purpose::STANDARD.encode` (standard alphabet,
with padding), modelled on byte lists; each input element is a byte below
256.  The result is the list of ASCII codes of the base64 text. -/
def b64encode : List Nat → List Nat
  | [] => []
  | [a] => [b64Char (a / 4), b64Char (a % 4 * 16), 61, 61]
  | [a, b] => [b64Char (a / 4), b64Char (a % 4 * 16 + b / 16), b64Char (b % 16 * 4), 61]
  | a :: b :: c :: rest =>
    b64Char (a / 4) :: b64Char (a % 4 * 16 + b / 16) :: b64Char (b % 16 * 4 + c / 64)
      :: b64Char (c % 64) :: b64encode rest

/-- `base64::engine::general_purpose::STANDARD.decode`: requires canonical
padding, rejects characters outside the alphabet and non-zero trailing bits,
failing with a decode error (`none`) on any invalid input. -/
def b64decode : List Nat → Option (List Nat)
  | [] => some []
  | c1 :: c2 :: c3 :: c4 :: rest => do
    let v1 ← b64CharVal c1
    let v2 ← b64CharVal c2
    if c3 = 61 then
      if c4 = 61 && rest.isEmpty then
        if v2 % 16 = 0 then some [v1 * 4 + v2 / 16] else none
      else none
    else do
      let v3 ← b64CharVal c3
      if c4 = 61 then
        if rest.isEmpty then
          if v3 % 4 = 0 then some [v1 * 4 + v2 / 16, v2 % 16 * 16 + v3 / 4] else none
        else none
      else do
        let v4 ← b64CharVal c4
        let tail ← b64decode rest
        some ((v1 * 4 + v2 / 16) :: (v2 % 16 * 16 + v3 / 4) :: (v3 % 4 * 64 + v4) :: tail)
  | _ => none

theorem b64CharVal_b64Char : ∀ n, n < 64 → b64CharVal (b64Char n) = some n := by decide

theorem b64Char_ne_pad : ∀ n, n < 64 → b64Char n ≠ 61 := by decide

/-- Standard base64 decoding is a left inverse of encoding on byte lists. -/
theorem b64decode_b64encode : ∀ bytes : List Nat, (∀ x ∈ bytes, x < 256) →
    b64decode (b64encode bytes) = some bytes := by
  intro bytes
  induction bytes using b64encode.induct with
  | case1 => intro; rfl
  | case2 a =>
    intro hlt
    have ha : a < 256 := hlt a (by simp)
    have h1 : b64CharVal (b64Char (a / 4)) = some (a / 4) :=
      b64CharVal_b64Char _ (by omega)
    have h2 : b64CharVal (b64Char (a % 4 * 16)) = some (a % 4 * 16) :=
      b64CharVal_b64Char _ (by omega)
    have e1 : a / 4 * 4 + a % 4 * 16 / 16 = a := by omega
    have e2 : a % 4 * 16 % 16 = 0 := by omega
    simp [b64encode, b64decode, h1, h2, e1, e2]
    omega
  | case3 a b =>
    intro hlt
    have ha : a < 256 := hlt a (by simp)
    have hb : b < 256 := hlt b (by simp)
    have h1 : b64CharVal (b64Char (a / 4)) = some (a / 4) :=
      b64CharVal_b64Char _ (by omega)
    have h2 : b64CharVal (b64Char (a % 4 * 16 + b / 16)) = some (a % 4 * 16 + b / 16) :=
      b64CharVal_b64Char _ (by omega)
    have h3 : b64CharVal (b64Char (b % 16 * 4)) = some (b % 16 * 4) :=
      b64CharVal_b64Char _ (by omega)
    have hne : b64Char (b % 16 * 4) ≠ 61 := b64Char_ne_pad _ (by omega)
    have e1 : a / 4 * 4 + (a % 4 * 16 + b / 16) / 16 = a := by omega
    have e2 : (a % 4 * 16 + b / 16) % 16 * 16 + b % 16 * 4 / 4 = b := by omega
    have e3 : b % 16 * 4 % 4 = 0 := by omega
    simp [b64encode, b64decode, h1, h2, h3, hne, e1, e2, e3]
    omega
  | case4 a b c rest ih =>
    intro hlt
    have ha : a < 256 := hlt a (by simp)
    have hb : b < 256 := hlt b (by simp)
    have hc : c < 256 := hlt c (by simp)
    have hrest : ∀ x ∈ rest, x < 256 := fun x hx => hlt x (by simp [hx])
    have h1 : b64CharVal (b64Char (a / 4)) = some (a / 4) :=
      b64CharVal_b64Char _ (by omega)
    have h2 : b64CharVal (b64Char (a % 4 * 16 + b / 16)) = some (a % 4 * 16 + b / 16) :=
      b64CharVal_b64Char _ (by omega)
    have h3 : b64CharVal (b64Char (b % 16 * 4 + c / 64)) = some (b % 16 * 4 + c / 64) :=
      b64CharVal_b64Char _ (by omega)
    have h4 : b64CharVal (b64Char (c % 64)) = some (c % 64) :=
      b64CharVal_b64Char _ (by omega)
    have hne3 : b64Char (b % 16 * 4 + c / 64) ≠ 61 := b64Char_ne_pad _ (by omega)
    have hne4 : b64Char (c % 64) ≠ 61 := b64Char_ne_pad _ (by omega)
    have e1 : a / 4 * 4 + (a % 4 * 16 + b / 16) / 16 = a := by omega
    have e2 : (a % 4 * 16 + b / 16) % 16 * 16 + (b % 16 * 4 + c / 64) / 4 = b := by omega
    have e3 : (b % 16 * 4 + c / 64) % 4 * 64 + c % 64 = c := by omega
    simp [b64encode, b64decode, h1, h2, h3, h4, hne3, hne4, e1, e2, e3, ih hrest]

/-- The function `transform_body` of src/utils.rs (lines 36-42), expressed on
the bytes of the produced `String`: base64-encode the body when required,
otherwise interpret its bytes as UTF-8 with lossy replacement.  The same
inline expression appears in src/lib.rs (lines 109-113) and src/main.rs
(lines 94-98). -/
def transform_body (should_base64_encode : Bool) (body : List Nat) : List Nat :=
  if should_base64_encode then b64encode body else fromUtf8Lossy body

/-- A JSON value tree: the output of serde_json's text-level parsing.  Numbers
are restricted to integers, which is all the deserialized structs accept. -/
inductive Json where
  | null
  | bool (b : Bool)
  | num (n : Int)
  | str (s : String)
  | arr (items : List Json)
  | obj (fields : List (String × Json))

/-- The `AlbTargetGroupResponse` struct of the external aws-lambda-events
crate, deserialized by src/buffered.rs: status code (JSON integer), optional
status description, header map, multi-value header map, optional body string,
and the base64 flag. -/
structure AlbTargetGroupResponse where
  statusCode : Int
  statusDescription : Option String
  headers : List (String × String)
  multiValueHeaders : List (String × String)
  body : Option String
  isBase64Encoded : Bool
deriving DecidableEq, Repr

/-- Header-map deserialization (the `deserialize_headers` helper of
aws-lambda-events): a JSON object whose values must all be strings. -/
def decodeHeaderFields : List (String × Json) → Option (List (String × String))
  | [] => some []
  | (k, .str v) :: rest => (decodeHeaderFields rest).map fun tail => (k, v) :: tail
  | _ => none

/-- Header-map deserialization from an arbitrary JSON value: must be an
object of strings. -/
def decodeHeaders : Json → Option (List (String × String))
  | .obj fields => decodeHeaderFields fields
  | _ => none

/-- serde_json deserialization of `AlbTargetGroupResponse` from a parsed JSON
value, per the crate's serde attributes (camelCase field names, unknown fields
ignored) and the buffered-reply wire format of the specification:
`statusCode` is a required integer; `statusDescription` is optional;
`headers` and `multiValueHeaders` default to empty maps when missing;
`body` defaults to absent; `isBase64Encoded` defaults to `false`.  A present
field of the wrong shape is a deserialization error. -/
def decodeAlbResponse : Json → Option AlbTargetGroupResponse
  | .obj fields =>
    match fields.lookup "statusCode" with
    | some (.num n) =>
      let statusDescriptionField :=
        match fields.lookup "statusDescription" with
        | none => some none
        | some .null => some none
        | some (.str s) => some (some s)
        | some _ => none
      let headersField :=
        match fields.lookup "headers" with
        | none => some []
        | some v => decodeHeaders v
      let multiValueHeadersField :=
        match fields.lookup "multiValueHeaders" with
        | none => some []
        | some v => decodeHeaders v
      let bodyField :=
        match fields.lookup "body" with
        | none => some none
        | some .null => some none
        | some (.str s) => some (some s)
        | some _ => none
      let isBase64EncodedField :=
        match fields.lookup "isBase64Encoded" with
        | none => some false
        | some (.bool b) => some b
        | some _ => none
      match statusDescriptionField, headersField, multiValueHeadersField,
          bodyField, isBase64EncodedField with
      | some sd, some hs, some mv, some bd, some flag => some ⟨n, sd, hs, mv, bd, flag⟩
      | _, _, _, _, _ => none
    | _ => none
  | _ => none

/-- The status conversion of src/buffered.rs (lines 16-22): `i64 → u16`
(`try_into`, failing outside 0 .. 65535) followed by `StatusCode::from_u16`
(failing outside 100 .. 999). -/
def statusFromCode (code : Int) : Option Nat :=
  if code < 0 ∨ 65535 < code then none
  else if code.toNat < 100 ∨ 999 < code.toNat then none
  else some code.toNat

/-- A 500 Internal Server Error with an empty body: the response produced by
the `handle_err!` macro of src/utils.rs (lines 5-19) on any decoding
failure. -/
def serverError : HttpResponse := ⟨500, [], []⟩

namespace Buffered

/-- The function `handle_buffered_response` of src/buffered.rs (lines 7-34).
`parseJson` stands for serde_json's text-level parsing of the payload bytes
(an absent payload is read as the empty slice); `decodeAlbResponse` is the
structure-level deserialization with its serde defaults.  Every failure goes
through `handle_err!` and becomes a 500 response with an empty body.  The
reply's headers are installed verbatim, and the body string is base64-decoded
exactly when the reply's flag is set. -/
def handle_buffered_response (parseJson : List Nat → Option Json)
    (payload : List Nat) : HttpResponse :=
  match parseJson payload with
  | none => serverError
  | some j =>
    match decodeAlbResponse j with
    | none => serverError
    | some lambdaResponse =>
      match statusFromCode lambdaResponse.statusCode with
      | none => serverError
      | some status =>
        let body := (lambdaResponse.body.map asciiBytes).getD []
        if lambdaResponse.isBase64Encoded then
          match b64decode body with
          | none => serverError
          | some decoded => ⟨status, lambdaResponse.headers, decoded⟩
        else ⟨status, lambdaResponse.headers, body⟩

/-- The body half of the buffered decode (src/buffered.rs lines 29-32): the
reply's body bytes, base64-decoded exactly when the flag is set. -/
def decodeReplyBody (isBase64Encoded : Bool) (body : List Nat) : Option (List Nat) :=
  if isBase64Encoded then b64decode body else some body

end Buffered

namespace LibRs

/-- A route target of the configuration consumed by `handler_factory`
(src/lib.rs line 84; the struct is exercised in src/config/tests.rs as
`Target { function, payload, invoke, auth }`).  Only the parts the handler
observes are modelled: the function name and the optional
`AuthMode::ApiKeys` key set (as a list). -/
structure Target where
  function : String
  auth : Option (List String)
deriving DecidableEq, Repr

/-- An inbound axum request as destructured by the handler (src/lib.rs lines
89-94): method, path, single-valued query parameters, headers (lower-case
names, first value wins on lookup), and raw body bytes. -/
structure Req where
  method : String
  path : String
  query : List (String × String)
  headers : List (String × String)
  body : List Nat
deriving DecidableEq, Repr

/-- The invocation payload assembled by the `json!` expression of src/lib.rs
(lines 138-153); its serialization to a JSON byte string is not modelled. -/
structure InvocationPayload where
  httpMethod : String
  headers : List (String × String)
  path : String
  query : List (String × String)
  isBase64Encoded : Bool
  body : List Nat
deriving DecidableEq, Repr

/-- The observable work stages of one handler invocation, in program order
within src/lib.rs `handler_factory`:
content-type classification (lines 96-107), request body transformation
(lines 109-113), the API-key authorization check (lines 115-136), the
invocation payload construction (lines 138-153), and the Lambda invocation
itself (lines 155-177). -/
inductive HandlerStep where
  | classify
  | transformBody
  | authCheck
  | buildPayload
  | invoke
deriving DecidableEq, Repr

/-- Result of the handler before the backend reply is processed: an early
response (produced without invoking the backend), or an invocation handed to
the backend client. -/
inductive HandlerResult where
  | early (resp : HttpResponse)
  | invoked (payload : InvocationPayload)
deriving DecidableEq, Repr

/-- The API-key extraction of src/lib.rs (lines 118-126): the `x-api-key`
header first, else the `authorization` header when its value carries a
`Bearer ` token, else the empty string. -/
def extractApiKey (headers : List (String × String)) : String :=
  (((getHeader headers "x-api-key")).orElse fun _ =>
    (getHeader headers "authorization").bind fun v =>
      if v.startsWith "Bearer " then some (v.drop 7) else none).getD ""

/-- The request handler produced by `handler_factory` of src/lib.rs (lines
84-179), instrumented with the ordered list of work stages it executes.  The
content-type classification and the body transformation happen first; the
API-key check runs after them and, when it fails, returns 401 with an empty
body without constructing the payload and without invoking the backend;
otherwise the payload is built and the backend invoked (processing of the
backend's reply is modelled separately). -/
def handler_factory (target : Target) (req : Req) : HandlerResult × List HandlerStep :=
  let isBase64Encoded := whether_should_base64_encode req.headers
  let body := transform_body isBase64Encoded req.body
  let steps := [HandlerStep.classify, HandlerStep.transformBody]
  match target.auth with
  | some keys =>
    let steps := steps ++ [HandlerStep.authCheck]
    if keys.contains (extractApiKey req.headers) then
      (.invoked ⟨req.method, req.headers, req.path, req.query, isBase64Encoded, body⟩,
        steps ++ [HandlerStep.buildPayload, HandlerStep.invoke])
    else
      (.early ⟨401, [], []⟩, steps)
  | none =>
    (.invoked ⟨req.method, req.headers, req.path, req.query, isBase64Encoded, body⟩,
      steps ++ [HandlerStep.buildPayload, HandlerStep.invoke])

end LibRs

namespace Streaming

theorem foldl_appendHeader (cookies : List String) : ∀ b : Builder,
    cookies.foldl (fun b cookie => b.appendHeader "set-cookie" cookie) b =
      ⟨b.status, b.headers ++ cookies.map fun cookie => ("set-cookie", cookie)⟩ := by
  induction cookies with
  | nil => intro b; cases b; simp
  | cons c cs ih =>
    intro b
    rw [List.foldl_cons, ih]
    simp [Builder.appendHeader]

/-- Closed form of the prelude branch of `create_response_builder`: the
prelude's status; its headers with every `content-length` entry removed,
followed by one `set-cookie` entry per cookie, in order. -/
theorem create_response_builder_some (metadata : MetadataPrelude) :
    create_response_builder (some metadata) =
      ⟨metadata.statusCode,
        removeHeader metadata.headers "content-length"
          ++ metadata.cookies.map fun cookie => ("set-cookie", cookie)⟩ := by
  rw [create_response_builder, foldl_appendHeader]
  rfl

end Streaming

/-- JSON text of a metadata prelude declaring status 500 with empty headers
and no cookies (44 ASCII bytes, none of them NUL). -/
def preludeJson500 : List Nat :=
  asciiBytes "\x7b\"statusCode\":500,\"headers\":\x7b\x7d,\"cookies\":[]\x7d"

/-- The prelude JSON parsed by serde_json. -/
def prelude500 : MetadataPrelude := ⟨500, [], []⟩

/-- A concrete stand-in for serde_json parsing of `MetadataPrelude`: succeeds
exactly on `preludeJson500`.  (Consistent with serde_json on every input it is
applied to in this development: the other inputs either contain raw NUL bytes
or trailing garbage after the JSON document, both of which serde_json
rejects.) -/
def parse500 : List Nat → Option MetadataPrelude :=
  fun l => if l = preludeJson500 then some prelude500 else none

/-- The accumulation buffer of the C1 scenario: the prelude JSON, the
eight-NUL delimiter, then the payload bytes `oops`. -/
def c1Buffer : List Nat := preludeJson500 ++ List.replicate 8 0 ++ asciiBytes "oops"

/-- C1: for every accumulation buffer whose first run of eight consecutive
NULs ends at offset `i`, the streaming decoder parses exactly the bytes
`buffer[0 .. i-7)` as the JSON `MetadataPrelude`, falling back to the default
prelude when that parse fails, and hands `buffer[i+1 ..]` on as the first
payload bytes.  `try_parse_metadata` of src/streaming.rs does exactly this
(conjuncts 1-3, at the concrete C1 buffer whose delimiter ends at
`i = preludeJson500.length + 7`); but `process_buffer` of src/lib.rs parses
`buffer[0 .. i)` instead, a slice that ends with the first seven NUL bytes of
the delimiter (conjunct 5), so its serde_json parse always fails and the
declared prelude is replaced by the default one (conjunct 4) — the code bug
recorded for this claim. -/
theorem c1_prelude_slice (parse : List Nat → Option MetadataPrelude) (p : MetadataPrelude)
    (hclean : parse preludeJson500 = some p)
    (hnul : ∀ l, (0 : Nat) ∈ l → parse l = none) :
    firstDelimEndsAt c1Buffer (preludeJson500.length + 7)
    ∧ c1Buffer.take (preludeJson500.length + 7 - 7) = preludeJson500
    ∧ Streaming.try_parse_metadata parse c1Buffer = some (p, asciiBytes "oops")
    ∧ LibRs.process_buffer parse c1Buffer = (some MetadataPrelude.default, asciiBytes "oops")
    ∧ (0 : Nat) ∈ c1Buffer.take (preludeJson500.length + 7) := by
  have hfd : findDelim c1Buffer = some (preludeJson500.length + 7) := by decide
  have htake : c1Buffer.take (preludeJson500.length + 7 - 7) = preludeJson500 := by decide
  have hdrop : c1Buffer.drop (preludeJson500.length + 7 + 1) = asciiBytes "oops" := by decide
  have hzero : (0 : Nat) ∈ c1Buffer.take (preludeJson500.length + 7) := by decide
  refine ⟨by decide, htake, ?_, ?_, hzero⟩
  · rw [Streaming.try_parse_metadata, hfd]
    simp only [Option.map_some']
    rw [htake, hclean, hdrop]
    rfl
  · rw [LibRs.process_buffer]
    simp only [hfd]
    rw [hnul _ hzero, hdrop]
    rfl

/-- Witness for C1: the hypotheses of `c1_prelude_slice` are satisfied by the
concrete parse stand-in `parse500`. -/
theorem c1_prelude_slice_witness :
    parse500 preludeJson500 = some prelude500
    ∧ (firstDelimEndsAt c1Buffer (preludeJson500.length + 7)
      ∧ c1Buffer.take (preludeJson500.length + 7 - 7) = preludeJson500
      ∧ Streaming.try_parse_metadata parse500 c1Buffer = some (prelude500, asciiBytes "oops")
      ∧ LibRs.process_buffer parse500 c1Buffer = (some MetadataPrelude.default, asciiBytes "oops")
      ∧ (0 : Nat) ∈ c1Buffer.take (preludeJson500.length + 7)) := by
  have hclean : parse500 preludeJson500 = some prelude500 := by
    simp [parse500]
  have hnul : ∀ l, (0 : Nat) ∈ l → parse500 l = none := by
    intro l hl
    have hne : l ≠ preludeJson500 := by
      intro heq
      subst heq
      exact absurd hl (by decide)
    simp [parse500, hne]
  exact ⟨hclean, c1_prelude_slice parse500 prelude500 hclean hnul⟩

/-- First chunk of the C2 scenario: the prelude JSON followed by only four of
the eight delimiter NULs. -/
def c2Chunk1 : List Nat := preludeJson500 ++ List.replicate 4 0

/-- Second chunk of the C2 scenario: the remaining four NULs, then the payload
bytes `hi`. -/
def c2Chunk2 : List Nat := List.replicate 4 0 ++ asciiBytes "hi"

/-- The C2 event stream with the delimiter split across two chunks. -/
def c2Events : List SEvent := [.chunk (some c2Chunk1), .chunk (some c2Chunk2), .complete]

/-- The same bytes delivered in a single chunk. -/
def c2MergedEvents : List SEvent := [.chunk (some (c2Chunk1 ++ c2Chunk2)), .complete]

/-- C2: a prelude delimiter split across two delivered chunks (the first chunk
ends after four NULs, the second supplies the other four) must still be
detected, exactly as if it had arrived in one chunk.  The decoder of
src/streaming.rs satisfies this: on the split stream it produces the same
response as on the merged stream, recognizing the prelude and relaying `hi`
(conjuncts 1 and 2).  The decoder of src/main.rs does not: its `null_count`
restarts at zero for every chunk, the split delimiter is never seen, the
prelude JSON and the payload are both swallowed into the metadata buffer
(whose parse then fails, yielding the default prelude), and the result is a
bare 200 response with no headers and an empty body (conjunct 3) — the code
bug recorded for this claim. -/
theorem c2_split_delimiter (parse : List Nat → Option MetadataPrelude) (p : MetadataPrelude)
    (hclean : parse preludeJson500 = some p)
    (hjunk : parse (preludeJson500 ++ asciiBytes "hi") = none) :
    Streaming.handle_streaming_response parse c2Events =
      Streaming.handle_streaming_response parse c2MergedEvents
    ∧ Streaming.handle_streaming_response parse c2Events =
        ⟨p.statusCode,
          Streaming.removeHeader p.headers "content-length"
            ++ p.cookies.map fun cookie => ("set-cookie", cookie),
          asciiBytes "hi"⟩
    ∧ MainRs.handle_streaming_response parse c2Events = ⟨200, [], []⟩ := by
  have hfd1 : findDelim c2Chunk1 = none := by decide
  have htp1 : Streaming.try_parse_metadata parse c2Chunk1 = none := by
    rw [Streaming.try_parse_metadata, hfd1]
    rfl
  have hfd2 : findDelim (c2Chunk1 ++ c2Chunk2) = some (preludeJson500.length + 7) := by decide
  have htake : (c2Chunk1 ++ c2Chunk2).take (preludeJson500.length + 7 - 7) = preludeJson500 := by
    decide
  have hdrop : (c2Chunk1 ++ c2Chunk2).drop (preludeJson500.length + 7 + 1) = asciiBytes "hi" := by
    decide
  have htp2 : Streaming.try_parse_metadata parse (c2Chunk1 ++ c2Chunk2) =
      some (p, asciiBytes "hi") := by
    rw [Streaming.try_parse_metadata, hfd2]
    simp only [Option.map_some']
    rw [htake, hclean, hdrop]
    rfl
  have hdet1 : Streaming.detect_metadata c2Chunk1 = true := by decide
  have hdet2 : Streaming.detect_metadata (c2Chunk1 ++ c2Chunk2) = true := by decide
  have hcol : Streaming.collect parse c2Events [] =
      (some p, asciiBytes "hi", [SEvent.complete]) := by
    simp [Streaming.collect, c2Events, hdet1, hdet2, htp1, htp2]
  have hcolMerged : Streaming.collect parse c2MergedEvents [] =
      (some p, asciiBytes "hi", [SEvent.complete]) := by
    simp [Streaming.collect, c2MergedEvents, hdet2, htp2]
  have hbody : (asciiBytes "hi").isEmpty = false := by decide
  have hresp : Streaming.handle_streaming_response parse c2Events =
      ⟨p.statusCode,
        Streaming.removeHeader p.headers "content-length"
          ++ p.cookies.map fun cookie => ("set-cookie", cookie),
        asciiBytes "hi"⟩ := by
    rw [Streaming.handle_streaming_response, hcol]
    simp [Streaming.create_response_builder_some, Streaming.relay, hbody]
  have hrespMerged : Streaming.handle_streaming_response parse c2MergedEvents =
      ⟨p.statusCode,
        Streaming.removeHeader p.headers "content-length"
          ++ p.cookies.map fun cookie => ("set-cookie", cookie),
        asciiBytes "hi"⟩ := by
    rw [Streaming.handle_streaming_response, hcolMerged]
    simp [Streaming.create_response_builder_some, Streaming.relay, hbody]
  have hcolMain : MainRs.collectLoop c2Events [] = (preludeJson500 ++ asciiBytes "hi", [], []) := by
    decide
  refine ⟨hresp.trans hrespMerged.symm, hresp, ?_⟩
  rw [MainRs.handle_streaming_response, hcolMain]
  simp [hjunk, MetadataPrelude.default, MainRs.relayLoop]

/-- Witness for C2: the hypotheses of `c2_split_delimiter` are satisfied by
the concrete parse stand-in `parse500`. -/
theorem c2_split_delimiter_witness :
    parse500 preludeJson500 = some prelude500
    ∧ parse500 (preludeJson500 ++ asciiBytes "hi") = none
    ∧ (Streaming.handle_streaming_response parse500 c2Events =
        Streaming.handle_streaming_response parse500 c2MergedEvents
      ∧ Streaming.handle_streaming_response parse500 c2Events =
          ⟨prelude500.statusCode,
            Streaming.removeHeader prelude500.headers "content-length"
              ++ prelude500.cookies.map fun cookie => ("set-cookie", cookie),
            asciiBytes "hi"⟩
      ∧ MainRs.handle_streaming_response parse500 c2Events = ⟨200, [], []⟩) := by
  have hclean : parse500 preludeJson500 = some prelude500 := by
    simp [parse500]
  have hjunk : parse500 (preludeJson500 ++ asciiBytes "hi") = none := by
    have hne : preludeJson500 ++ asciiBytes "hi" ≠ preludeJson500 := by decide
    simp [parse500, hne]
  exact ⟨hclean, hjunk, c2_split_delimiter parse500 prelude500 hclean hjunk⟩

/-- C3: for every protocol-conforming streaming response whose first byte is
not the opening brace, no prelude is recognized: the response has the default
status 200 with the single header `content-type: application/octet-stream`,
and the payload bytes delivered to the client are the entire input stream from
byte zero. -/
theorem c3_no_prelude (parse : List Nat → Option MetadataPrelude) (events : List SEvent)
    (b : Nat) (hw : Streaming.wellFormed events = true)
    (hb : (Streaming.streamData events).head? = some b) (hne : b ≠ 123) :
    Streaming.handle_streaming_response parse events =
      ⟨200, [("content-type", "application/octet-stream")], Streaming.streamData events⟩ := by
  match events with
  | [] => simp [Streaming.streamData] at hb
  | .complete :: rest =>
    match rest with
    | [] => simp [Streaming.streamData] at hb
    | e :: rest2 => simp [Streaming.wellFormed] at hw
  | .other :: rest => simp [Streaming.wellFormed] at hw
  | .chunk none :: rest =>
    rw [Streaming.handle_streaming_response]
    have hcol : Streaming.collect parse (.chunk none :: rest) [] = (none, [], rest) := by
      simp [Streaming.collect]
    rw [hcol]
    simp [Streaming.create_response_builder, Streaming.Builder.new, Streaming.Builder.setStatus,
      Streaming.Builder.appendHeader, Streaming.relay_flatten, Streaming.streamData]
  | .chunk (some data) :: rest =>
    match data with
    | [] =>
      rw [Streaming.handle_streaming_response]
      have hcol : Streaming.collect parse (.chunk (some []) :: rest) [] = (none, [], rest) := by
        simp [Streaming.collect, Streaming.detect_metadata]
      rw [hcol]
      simp [Streaming.create_response_builder, Streaming.Builder.new, Streaming.Builder.setStatus,
        Streaming.Builder.appendHeader, Streaming.relay_flatten, Streaming.streamData]
    | x :: xs =>
      have hx : x = b := by
        simp [Streaming.streamData] at hb
        exact hb
      subst hx
      have hdet : Streaming.detect_metadata (x :: xs) = false := by
        simp [Streaming.detect_metadata, hne]
      rw [Streaming.handle_streaming_response]
      have hcol : Streaming.collect parse (.chunk (some (x :: xs)) :: rest) [] =
          (none, x :: xs, rest) := by
        simp [Streaming.collect, hdet]
      rw [hcol]
      simp [Streaming.create_response_builder, Streaming.Builder.new, Streaming.Builder.setStatus,
        Streaming.Builder.appendHeader, Streaming.relay_flatten, Streaming.streamData]

/-- The event stream of the C3 boundary example: the raw bytes
`Hello, world!` then the completion marker. -/
def c3Events : List SEvent := [.chunk (some (asciiBytes "Hello, world!")), .complete]

/-- Witness for C3 at the concrete stream whose first byte is `H` (72). -/
theorem c3_no_prelude_witness :
    (Streaming.wellFormed c3Events = true
      ∧ (Streaming.streamData c3Events).head? = some 72 ∧ 72 ≠ 123)
    ∧ Streaming.handle_streaming_response parse500 c3Events =
        ⟨200, [("content-type", "application/octet-stream")], Streaming.streamData c3Events⟩ :=
  ⟨by refine ⟨by decide, by decide, by decide⟩,
    c3_no_prelude parse500 c3Events 72 (by decide) (by decide) (by decide)⟩

/-- C4: for every recognized `MetadataPrelude`, the outgoing response head
built by `create_response_builder` uses the prelude's status verbatim and its
headers verbatim except that every `content-length` entry is removed, with one
`set-cookie` header appended per cookie of the prelude in the prelude's
order; no `content-length` header remains in the result. -/
theorem c4_prelude_head (metadata : MetadataPrelude) :
    (Streaming.create_response_builder (some metadata)).status = metadata.statusCode
    ∧ (Streaming.create_response_builder (some metadata)).headers =
        Streaming.removeHeader metadata.headers "content-length"
          ++ metadata.cookies.map (fun cookie => ("set-cookie", cookie))
    ∧ (Streaming.create_response_builder (some metadata)).headers.filter
        (fun kv => kv.1 == "content-length") = [] := by
  rw [Streaming.create_response_builder_some]
  refine ⟨rfl, rfl, ?_⟩
  rw [List.filter_append]
  have h1 : (Streaming.removeHeader metadata.headers "content-length").filter
      (fun kv => kv.1 == "content-length") = [] := by
    rw [List.filter_eq_nil_iff]
    intro kv hkv
    rw [Streaming.removeHeader, List.mem_filter] at hkv
    simpa using hkv.2
  have h2 : (metadata.cookies.map fun cookie =>
      (("set-cookie" : String), cookie)).filter (fun kv => kv.1 == "content-length") = [] := by
    rw [List.filter_eq_nil_iff]
    intro kv hkv
    rw [List.mem_map] at hkv
    obtain ⟨cookie, _, rfl⟩ := hkv
    simp
  rw [h1, h2]
  rfl

/-- The C5 route target: API-key authorization with the single key `key1`. -/
def c5Target : LibRs.Target := ⟨"my-function", some ["key1"]⟩

/-- The C5 request: carries no credentials, so authorization is denied. -/
def c5Req : LibRs.Req := ⟨"GET", "/hello", [], [], asciiBytes "hi"⟩

/-- C5 counterexample: the claim states that on authorization failure the
handler returns 401 with an empty body *before any translation work occurs*
and that the backend sees zero invocations.  At this concrete denied request
the 401-with-empty-body and the zero-invocation parts hold, but the body
transformation — translation work — has already been executed before the
authorization check, so the claim as stated is false: the conjunction of
"401 with empty body" and "no translation step was executed" fails. -/
theorem c5_counterexample :
    LibRs.HandlerStep.transformBody ∈ (LibRs.handler_factory c5Target c5Req).2
    ∧ ¬ ((LibRs.handler_factory c5Target c5Req).1 = .early ⟨401, [], []⟩
        ∧ (LibRs.handler_factory c5Target c5Req).2.filter
            (fun s => s == LibRs.HandlerStep.transformBody
              || s == LibRs.HandlerStep.buildPayload) = []) := by
  decide

/-- C5 (amended): for every inbound request that fails the authorization
check, the handler returns 401 with an empty body, executes exactly the
classification, body-transformation and authorization steps — so the
invocation payload is never constructed — and the backend client observes
zero invocation calls; the classification and body transformation, however,
run before the authorization check. -/
theorem c5_amended (target : LibRs.Target) (req : LibRs.Req) (keys : List String)
    (hauth : target.auth = some keys)
    (hdenied : keys.contains (LibRs.extractApiKey req.headers) = false) :
    (LibRs.handler_factory target req).1 = .early ⟨401, [], []⟩
    ∧ (LibRs.handler_factory target req).2 =
        [LibRs.HandlerStep.classify, LibRs.HandlerStep.transformBody,
          LibRs.HandlerStep.authCheck]
    ∧ (LibRs.handler_factory target req).2.count LibRs.HandlerStep.invoke = 0 := by
  rw [LibRs.handler_factory, hauth]
  simp only [hdenied]
  exact ⟨rfl, rfl, rfl⟩

/-- Witness for C5 (amended) at the concrete denied request. -/
theorem c5_amended_witness :
    (c5Target.auth = some ["key1"]
      ∧ ["key1"].contains (LibRs.extractApiKey c5Req.headers) = false)
    ∧ ((LibRs.handler_factory c5Target c5Req).1 = .early ⟨401, [], []⟩
      ∧ (LibRs.handler_factory c5Target c5Req).2 =
          [LibRs.HandlerStep.classify, LibRs.HandlerStep.transformBody,
            LibRs.HandlerStep.authCheck]
      ∧ (LibRs.handler_factory c5Target c5Req).2.count LibRs.HandlerStep.invoke = 0) :=
  ⟨by decide, c5_amended c5Target c5Req ["key1"] (by decide) (by decide)⟩

/-- Payload of the C6 counterexample: a buffered reply declaring status 600. -/
def c6Payload600 : List Nat := asciiBytes "\x7b\"statusCode\":600,\"body\":\"x\"\x7d"

/-- The C6 payload as the JSON value serde_json parses it to. -/
def c6Json600 : Json := .obj [("statusCode", .num 600), ("body", .str "x")]

/-- Concrete stand-in for serde_json text-level parsing in the C6
counterexample: succeeds exactly on the status-600 payload. -/
def c6Parse : List Nat → Option Json :=
  fun l => if l = c6Payload600 then some c6Json600 else none

/-- C6 counterexample: the claim requires the buffered decoder to fail with a
`DecodeError` (a 500 response) whenever the reply's status code is not a legal
HTTP status (the specification reads this as outside 100-599).  Status 600 is
not a legal HTTP status, yet the decoder accepts it — `StatusCode::from_u16`
admits the whole range 100-999 — and happily returns a 600 response instead
of the required 500, so the claim as stated is false at this input. -/
theorem c6_counterexample :
    Buffered.handle_buffered_response c6Parse c6Payload600 = ⟨600, [], asciiBytes "x"⟩
    ∧ Buffered.handle_buffered_response c6Parse c6Payload600 ≠ serverError
    ∧ ¬ ((100 : Int) ≤ 600 ∧ (600 : Int) ≤ 599) := by
  refine ⟨by decide, by decide, by decide⟩

/-- C6 (amended): the buffered decoder fails with a `DecodeError` — surfaced
as a 500 response with an empty body, never a panic — when the payload is not
valid JSON, when its structure does not deserialize, or when its status code
lies outside 100-999 (the range accepted by the HTTP library; 600-999 are
accepted even though they fall outside the standard 100-599 registry).  On
success, a reply carrying only `statusCode` deserializes with no headers, an
absent body and the base64 flag defaulted to false; and the body is
base64-decoded exactly when the flag is set, invalid base64 again failing
with a `DecodeError`. -/
theorem c6_amended (parseJson : List Nat → Option Json) (payload : List Nat) :
    (parseJson payload = none →
      Buffered.handle_buffered_response parseJson payload = serverError)
    ∧ (∀ j, parseJson payload = some j → decodeAlbResponse j = none →
        Buffered.handle_buffered_response parseJson payload = serverError)
    ∧ (∀ j alb, parseJson payload = some j → decodeAlbResponse j = some alb →
        statusFromCode alb.statusCode = none →
        Buffered.handle_buffered_response parseJson payload = serverError)
    ∧ (∀ code : Int, statusFromCode code = none ↔ ¬ (100 ≤ code ∧ code ≤ 999))
    ∧ (∀ n : Int, decodeAlbResponse (Json.obj [("statusCode", Json.num n)]) =
        some ⟨n, none, [], [], none, false⟩)
    ∧ (∀ j alb status, parseJson payload = some j → decodeAlbResponse j = some alb →
        statusFromCode alb.statusCode = some status →
        Buffered.handle_buffered_response parseJson payload =
          match Buffered.decodeReplyBody alb.isBase64Encoded
              ((alb.body.map asciiBytes).getD []) with
          | some decoded => ⟨status, alb.headers, decoded⟩
          | none => serverError) := by
  refine ⟨?_, ?_, ?_, ?_, ?_, ?_⟩
  · intro h
    simp [Buffered.handle_buffered_response, h]
  · intro j h1 h2
    simp [Buffered.handle_buffered_response, h1, h2]
  · intro j alb h1 h2 h3
    simp [Buffered.handle_buffered_response, h1, h2, h3]
  · intro code
    rw [statusFromCode]
    split_ifs with h1 h2 <;> simp <;> omega
  · intro n
    rfl
  · intro j alb status h1 h2 h3
    simp only [Buffered.handle_buffered_response, h1, h2, h3, Buffered.decodeReplyBody]
    by_cases hflag : alb.isBase64Encoded
    · simp only [hflag, if_true]
      cases hdec : b64decode ((alb.body.map asciiBytes).getD []) <;> simp [hdec]
    · simp only [hflag, if_false]
      simp [hflag]

/-- Witness for C6 (amended): applying the theorem at a parse function that
always fails and at the empty payload. -/
theorem c6_amended_witness :
    ((fun _ : List Nat => (none : Option Json)) [] = none
      → Buffered.handle_buffered_response (fun _ => none) [] = serverError)
    ∧ Buffered.handle_buffered_response (fun _ => none) [] = serverError := by
  have h := c6_amended (fun _ => none) []
  exact ⟨h.1, h.1 rfl⟩

/-- A single chunk carrying a complete framed response: prelude JSON, the
eight-NUL delimiter, then the payload `hi`. -/
def c7FullChunk : List Nat := preludeJson500 ++ List.replicate 8 0 ++ asciiBytes "hi"

/-- The C7 stream with an empty chunk in front of the framed response. -/
def c7EventsWithEmpty : List SEvent :=
  [.chunk (some []), .chunk (some c7FullChunk), .complete]

/-- The C7 stream without the empty chunk. -/
def c7Events : List SEvent := [.chunk (some c7FullChunk), .complete]

/-- C7 counterexample: the claim states that empty chunks are tolerated and
ignored at every position — in particular that an empty chunk during prelude
detection neither terminates the prelude search nor changes the decoded
result.  But when an empty chunk arrives first, the accumulation buffer is
still empty, `detect_metadata` fails, and the collection loop commits to "no
prelude": the prelude of the following chunk is relayed raw under the default
head (status 200, octet-stream) instead of being recognized (status 500, body
`hi`), so the decoded result changes and the claim as stated is false. -/
theorem c7_counterexample :
    Streaming.handle_streaming_response parse500 c7EventsWithEmpty =
      ⟨200, [("content-type", "application/octet-stream")], c7FullChunk⟩
    ∧ Streaming.handle_streaming_response parse500 c7Events = ⟨500, [], asciiBytes "hi"⟩
    ∧ Streaming.handle_streaming_response parse500 c7EventsWithEmpty ≠
        Streaming.handle_streaming_response parse500 c7Events := by
  refine ⟨by decide, by decide, by decide⟩

/-- C7 (amended): chunks with an empty or absent byte slice are ignored
during relay (conjuncts 4 and 5), and an empty chunk is also ignored during
prelude detection once data has accumulated (conjunct 1); however, an empty
chunk arriving while the accumulation buffer is still empty terminates the
prelude search with "no prelude" (conjunct 2), and a payload-less chunk
during detection ends the search, committing the accumulated bytes as payload
(conjunct 3). -/
theorem c7_amended (parse : List Nat → Option MetadataPrelude) (events : List SEvent)
    (buffer : List Nat)
    (hdet : Streaming.detect_metadata buffer = true)
    (hun : Streaming.try_parse_metadata parse buffer = none) :
    Streaming.collect parse (.chunk (some []) :: events) buffer =
      Streaming.collect parse events buffer
    ∧ Streaming.collect parse (.chunk (some []) :: events) [] = (none, [], events)
    ∧ Streaming.collect parse (.chunk none :: events) buffer = (none, buffer, events)
    ∧ Streaming.relay (.chunk (some []) :: events) = Streaming.relay events
    ∧ Streaming.relay (.chunk none :: events) = Streaming.relay events := by
  refine ⟨?_, ?_, ?_, ?_, ?_⟩
  · simp [Streaming.collect, hdet, hun]
  · simp [Streaming.collect, Streaming.detect_metadata]
  · simp [Streaming.collect]
  · simp [Streaming.relay]
  · simp [Streaming.relay]

/-- Witness for C7 (amended): a buffer holding just the opening brace is
mid-detection (brace seen, no delimiter yet). -/
theorem c7_amended_witness :
    (Streaming.detect_metadata [123] = true
      ∧ Streaming.try_parse_metadata parse500 [123] = none)
    ∧ (Streaming.collect parse500 [SEvent.complete] [123] =
        Streaming.collect parse500 [] [123]
      ∧ Streaming.collect parse500 [SEvent.chunk (some []), SEvent.complete] [] =
          (none, [], [SEvent.complete])
      ∧ Streaming.collect parse500 [SEvent.chunk none, SEvent.complete] [123] =
          (none, [123], [SEvent.complete])
      ∧ Streaming.relay [SEvent.chunk (some []), SEvent.complete] =
          Streaming.relay [SEvent.complete]
      ∧ Streaming.relay [SEvent.chunk none, SEvent.complete] =
          Streaming.relay [SEvent.complete]) := by
  have h := c7_amended parse500 [SEvent.complete] [123] (by decide) (by decide)
  exact ⟨⟨by decide, by decide⟩,
    by simpa using h.1, h.2.1, h.2.2.1, h.2.2.2.1, h.2.2.2.2⟩

/-- C8: for every chunk stream, the streaming decoder recognizes at most one
`MetadataPrelude`, and only before any payload byte is emitted: the per-event
trace of the decoder equals the two-loop trace, whose shape is an optional
single prelude recognition followed exclusively by payload frames — once any
byte has been classified as payload, no further prelude recognition occurs. -/
theorem c8_single_prelude (parse : List Nat → Option MetadataPrelude)
    (events : List SEvent) :
    Streaming.machineTrace parse events = Streaming.decodeTrace parse events
    ∧ ∃ mo : Option MetadataPrelude, ∃ frames : List (List Nat),
        Streaming.decodeTrace parse events =
          (match mo with | some p => [Streaming.SOut.meta p] | none => [])
            ++ frames.map Streaming.SOut.bytes := by
  refine ⟨Streaming.machineTrace_eq_decodeTrace parse events, ?_⟩
  refine ⟨(Streaming.collect parse events []).1,
    (if (Streaming.collect parse events []).2.1.isEmpty then []
      else [(Streaming.collect parse events []).2.1])
      ++ Streaming.relay (Streaming.collect parse events []).2.2, ?_⟩
  rw [Streaming.decodeTrace, Streaming.traceOf]
  rw [List.map_append]
  by_cases h : (Streaming.collect parse events []).2.1.isEmpty <;> simp [h]

/-- C9: the content classifier is a total function of the content-type string
that returns "not encoded" (`false`) exactly for `application/json`,
`application/xml`, `application/javascript` and every value starting with
`text/`; every other value — including an empty content-type and a request
with no content-type header at all — yields "must encode" (`true`). -/
theorem c9_classifier :
    (∀ ct : String, whether_should_base64_encode [("content-type", ct)] = false ↔
      (ct = "application/json" ∨ ct = "application/xml" ∨ ct = "application/javascript"
        ∨ ct.startsWith "text/" = true))
    ∧ whether_should_base64_encode [] = true
    ∧ whether_should_base64_encode [("content-type", "")] = true
    ∧ ∀ headers, getHeader headers "content-type" = none →
        whether_should_base64_encode headers = true := by
  refine ⟨?_, by decide, by decide, ?_⟩
  · intro ct
    rw [whether_should_base64_encode]
    have hget : (getHeader [("content-type", ct)] "content-type").getD "" = ct := by
      simp [getHeader]
    rw [hget]
    split_ifs with h1 h2 h3 h4 <;> simp_all
  · intro headers h
    rw [whether_should_base64_encode, h]
    decide

/-- Witness for C9: the content-type-free request must be encoded; the exact
JSON content type must not. -/
theorem c9_classifier_witness :
    getHeader [("accept", "1")] "content-type" = none
    ∧ whether_should_base64_encode [("accept", "1")] = true
    ∧ whether_should_base64_encode [("content-type", "application/json")] = false :=
  ⟨by decide, c9_classifier.2.2.2 [("accept", "1")] (by decide),
    (c9_classifier.1 "application/json").mpr (Or.inl rfl)⟩

/-- C10: round trips of the body translation.  A valid-UTF-8 text body
survives `transform_body` (unencoded path, lossy UTF-8 interpretation)
followed by the buffered reply's body decode with the flag unset; a binary
body survives the base64 path (standard alphabet with padding) followed by
the decode with the flag set. -/
theorem c10_round_trip (textBody binaryBody : List Nat)
    (hvalid : validUtf8 textBody = true)
    (hbytes : ∀ x ∈ binaryBody, x < 256) :
    Buffered.decodeReplyBody false (transform_body false textBody) = some textBody
    ∧ Buffered.decodeReplyBody true (transform_body true binaryBody) = some binaryBody := by
  constructor
  · simp [Buffered.decodeReplyBody, transform_body, fromUtf8Lossy_valid _ hvalid]
  · simp [Buffered.decodeReplyBody, transform_body, b64decode_b64encode _ hbytes]

/-- Witness for C10: the text round trip on `Hello, world!` and the binary
round trip on bytes that are not valid UTF-8. -/
theorem c10_round_trip_witness :
    (validUtf8 (asciiBytes "Hello, world!") = true
      ∧ ([0, 255, 254, 7].all fun x => x < 256) = true)
    ∧ Buffered.decodeReplyBody false (transform_body false (asciiBytes "Hello, world!")) =
        some (asciiBytes "Hello, world!")
    ∧ Buffered.decodeReplyBody true (transform_body true [0, 255, 254, 7]) =
        some [0, 255, 254, 7] := by
  have hv : validUtf8 (asciiBytes "Hello, world!") = true :=
    validUtf8_ascii _ (by decide)
  have h := c10_round_trip (asciiBytes "Hello, world!") [0, 255, 254, 7]
    hv (by decide)
  exact ⟨⟨hv, by decide⟩, h.1, h.2⟩
